import Mathlib

/-!
Shallow embedding of the native-asset zero-knowledge circuits and their
JavaScript/Go companions:

* `src/circuits/main.circom` — `ScriptPubKeyEqual`, `BalanceCheck`,
  `CheckSpendToSameCovenant`, `CheckP2SHSpend`, `ArraySelector`,
  `NativeAssetProof` and the OR-accumulator of `NativeAsset`;
* `src/provers/circom/circuits/token_transfer.circom` — `HashArray` and the
  signature-message construction;
* `src/web/src/provers/circom.js` — the prover-side commitment computation;
* the Go WASM prover (`safeProve`) — witness-array shape handling;
* `src/web/server/tokens.js` — `updateTokenLedger`.

All circuit signals live in the BN254 scalar field.
-/

/-- The BN254 scalar field modulus used by circom and gnark. -/
abbrev P : ℕ := 21888242871839275222246405745257275088548364400416034343698204186575808495617

/-- The circuit's field of signals. -/
abbrev F := ZMod P

instance : Fact (1 < P) := ⟨by norm_num⟩

instance : NeZero P := ⟨by norm_num⟩

/-- Semantics of circomlib `IsEqual`: the constraints force the output signal
to be 1 exactly when the two inputs coincide. -/
def isEqual (a b : F) : F := if a = b then 1 else 0

/-- `ScriptPubKeyEqual(len)` from `src/circuits/main.circom`: the running
product `allEqual[i+1] = allEqual[i] * eq[i].out` over per-position
`IsEqual`, starting from `allEqual[0] = 1`.  (`ByteArrayEqual` in
`src/web/circuits/native_token.circom` is the same fold.) -/
def scriptPubKeyEqual (len : ℕ) (a b : ℕ → F) : F :=
  (List.range len).foldl (fun acc i => acc * isEqual (a i) (b i)) 1

/-- The prefix-sum fold `acc[0] = 0, acc[i+1] = acc[i] + v[i]` used by
`BalanceCheck` for `inputSum`/`outputSum`. -/
def sumFold (n : ℕ) (v : ℕ → F) : F :=
  (List.range n).foldl (fun acc i => acc + v i) 0

/-- The OR-accumulator fold `acc[0] = 0, acc[i+1] = acc[i] + b[i] - acc[i]*b[i]`
used for `anyMatch` in `CheckP2SHSpend` and `hasAuth` in `NativeAsset`. -/
def orFold (n : ℕ) (b : ℕ → F) : F :=
  (List.range n).foldl (fun acc i => acc + b i - acc * b i) 0

/-- `ArraySelector(n)` from `src/circuits/main.circom` (identical to
`ArraySelect` in `src/web/circuits/native_token.circom`): the fold
`selected[i+1] = selected[i] + IsEqual(i, index) * arr[i]` from
`selected[0] = 0`. -/
def arraySelector (n : ℕ) (arr : ℕ → F) (index : F) : F :=
  (List.range n).foldl (fun (sel : F) (i : ℕ) => sel + isEqual (i : F) index * arr i) 0

/-- Satisfiability of circomlib `LessThan(k)`: its `Num2Bits(k+1)` component
constrains `in[0] + 2^k - in[1]` to have a `k+1`-bit decomposition, which is
possible exactly when that field value's representative is below `2^(k+1)`. -/
abbrev lessThanSat (k : ℕ) (a b : F) : Prop :=
  (a + ((2 ^ k : ℕ) : F) - b).val < 2 ^ (k + 1)

/-- Output of circomlib `LessThan(k)` on a satisfying witness:
`out = 1 - n2b.out[k]`, where bit `k` of the (under `lessThanSat`) unique
decomposition of `in[0] + 2^k - in[1]` is its representative divided by `2^k`. -/
def lessThanOut (k : ℕ) (a b : F) : F :=
  1 - (((a + ((2 ^ k : ℕ) : F) - b).val / 2 ^ k : ℕ) : F)

/-- `BalanceCheck(numInputs, numOutputs)` from `src/circuits/main.circom`:
the enforced constraint `inputSum[numInputs] === outputSum[numOutputs]` on the
two prefix-sum folds over every slot of the fixed-capacity arrays. -/
abbrev balanceCheck (numInputs numOutputs : ℕ) (inputAmounts outputAmounts : ℕ → F) : Prop :=
  sumFold numInputs inputAmounts = sumFold numOutputs outputAmounts

/-- `CheckSpendToSameCovenant(maxOutputs, spkLen)` from
`src/circuits/main.circom`: for every output slot `i`, the `LessThan(8)`
comparison of `i` against `numTokenOuts` must be satisfiable, and the
constraint `idxLessThan[i].out * (1 - spkEqual[i].isEqual) === 0` must hold. -/
abbrev checkSpendToSameCovenant (maxOutputs spkLen : ℕ) (outputScripts : ℕ → ℕ → F)
    (currentCovenantScript : ℕ → F) (numTokenOuts : F) : Prop :=
  ∀ i, i < maxOutputs →
    lessThanSat 8 (i : F) numTokenOuts ∧
    lessThanOut 8 (i : F) numTokenOuts *
      (1 - scriptPubKeyEqual spkLen (outputScripts i) currentCovenantScript) = 0

/-- The `anyMatch` accumulator of `CheckP2SHSpend(maxInputs, spkLen)` after
folding the first `k` inputs. -/
def anyMatchAcc (k spkLen : ℕ) (inputScripts : ℕ → ℕ → F) (currentTokenScript : ℕ → F) : F :=
  orFold k (fun i => scriptPubKeyEqual spkLen (inputScripts i) currentTokenScript)

/-- `CheckP2SHSpend(maxInputs, spkLen)` from `src/circuits/main.circom`:
the enforced constraint `anyMatch[maxInputs] === 1`. -/
abbrev checkP2SHSpend (maxInputs spkLen : ℕ) (inputScripts : ℕ → ℕ → F)
    (currentTokenScript : ℕ → F) : Prop :=
  anyMatchAcc maxInputs spkLen inputScripts currentTokenScript = 1

/-- The `hasAuth` accumulator of the `NativeAsset(nInputs, nOutputs)` template
in `src/circuits/main.circom` after folding the first `k` inputs:
an OR-fold over `IsEqual(inCovenants[i], spendingCovenant)`. -/
def hasAuthAcc (k : ℕ) (inCovenants : ℕ → F) (spendingCovenant : F) : F :=
  orFold k (fun i => isEqual (inCovenants i) spendingCovenant)

/-- The signal inputs of `NativeAssetProof(maxInputs, maxOutputs, spkLen)`
from `src/circuits/main.circom`, in declaration order.  Fixed-capacity signal
arrays are represented as functions from the slot index. -/
structure NAPWitness where
  inputAmounts : ℕ → F
  inputScripts : ℕ → ℕ → F
  inputTokenScripts : ℕ → ℕ → F
  numInputs : F
  inputIndex : F
  outputAmounts : ℕ → F
  outputScripts : ℕ → ℕ → F
  numOutputs : F
  numTokenOuts : F
  isP2SHSpend : F

/-- The `currentCovenantScript` signal of `NativeAssetProof`:
`ArraySelector(maxInputs)` applied per script position to the input scripts
at `inputIndex`. -/
def currentCovenantScript (maxInputs : ℕ) (w : NAPWitness) : ℕ → F :=
  fun j => arraySelector maxInputs (fun i => w.inputScripts i j) w.inputIndex

/-- The `currentTokenScript` signal of `NativeAssetProof`:
`ArraySelector(maxInputs)` applied per script position to the input token
scripts at `inputIndex`. -/
def currentTokenScript (maxInputs : ℕ) (w : NAPWitness) : ℕ → F :=
  fun j => arraySelector maxInputs (fun i => w.inputTokenScripts i j) w.inputIndex

/-- The full constraint system of `NativeAssetProof(maxInputs, maxOutputs,
spkLen)` from `src/circuits/main.circom`: `BalanceCheck` on all amount slots,
`CheckSpendToSameCovenant` against the selected covenant script, and
`CheckP2SHSpend` against the selected token script.  Note that the circuit
never uses the `numInputs`, `numOutputs` and `isP2SHSpend` input signals. -/
abbrev nativeAssetProofAccepts (maxInputs maxOutputs spkLen : ℕ) (w : NAPWitness) : Prop :=
  balanceCheck maxInputs maxOutputs w.inputAmounts w.outputAmounts ∧
  checkSpendToSameCovenant maxOutputs spkLen w.outputScripts
    (currentCovenantScript maxInputs w) w.numTokenOuts ∧
  checkP2SHSpend maxInputs spkLen w.inputScripts (currentTokenScript maxInputs w)

/-- Replace the `outputScripts` signal array of a witness, all other signals
held fixed. -/
def setOutputScripts (w : NAPWitness) (s : ℕ → ℕ → F) : NAPWitness :=
  { w with outputScripts := s }

/-- Replace the `outputAmounts` signal array of a witness, all other signals
held fixed. -/
def setOutputAmounts (w : NAPWitness) (a : ℕ → F) : NAPWitness :=
  { w with outputAmounts := a }

/-- `HashArray(n)` from `src/provers/circom/circuits/token_transfer.circom`:
partition the `n` values into `(n + 7) \ 8` chunks of 8 (zero-padding indices
`idx >= n`), hash each chunk with `Poseidon(8)`, then hash the chunk outputs
with `Poseidon(numChunks)`.  The Poseidon family is abstracted as a function
on lists of field elements. -/
def hashArray (poseidon : List F → F) (n : ℕ) (values : ℕ → F) : F :=
  poseidon ((List.range ((n + 7) / 8)).map fun c =>
    poseidon ((List.range 8).map fun i => if c * 8 + i < n then values (c * 8 + i) else 0))

/-- The `outputData` signal of `TokenTransferProof`:
`outputData[i*3] = outputAmounts[i]`, `outputData[i*3+1] = outputScripts[i]`,
`outputData[i*3+2] = outputOwnerPubKeyX[i]`. -/
def circuitOutputData (outputAmounts outputScripts outputOwnerPubKeyX : ℕ → F) : ℕ → F :=
  fun k =>
    if k % 3 = 0 then outputAmounts (k / 3)
    else if k % 3 = 1 then outputScripts (k / 3)
    else outputOwnerPubKeyX (k / 3)

/-- The `outputCommitment` signal of `TokenTransferProof(maxOutputs)`:
`HashArray(maxOutputs * 3)` over the flattened output data. -/
def circuitOutputCommitment (poseidon : List F → F) (maxOutputs : ℕ)
    (outputAmounts outputScripts outputOwnerPubKeyX : ℕ → F) : F :=
  hashArray poseidon (maxOutputs * 3)
    (circuitOutputData outputAmounts outputScripts outputOwnerPubKeyX)

/-- The `sigMsg` signal of `TokenTransferProof`: `Poseidon(3)` over
`inputAmount`, `inputScript` and `outputCommitment`. -/
def sigMessage (poseidon : List F → F) (inputAmount inputScript outputCommitment : F) : F :=
  poseidon [inputAmount, inputScript, outputCommitment]

/-- The `outputData` array built by `generateInputs` in
`src/web/src/provers/circom.js`: for each slot push the amount, the script and
the owner public key x-coordinate. -/
def jsOutputData (maxOutputs : ℕ) (outputAmounts outputScripts outputOwnerPubKeyX : ℕ → F) :
    List F :=
  (List.range maxOutputs).flatMap fun i =>
    [outputAmounts i, outputScripts i, outputOwnerPubKeyX i]

/-- The prover-side commitment computation of `generateInputs` in
`src/web/src/provers/circom.js`: `numChunks = ceil(length / 8)` chunks of 8
entries (entries with `idx >= length` replaced by 0), `poseidon` per chunk,
then `poseidon` over the vector of chunk hashes. -/
def jsOutputCommitment (poseidon : List F → F) (outputData : List F) : F :=
  poseidon ((List.range ((outputData.length + 7) / 8)).map fun c =>
    poseidon ((List.range 8).map fun i =>
      if c * 8 + i < outputData.length then outputData.getD (c * 8 + i) 0 else 0))

/-- The signed message built by `generateInputs` in
`src/web/src/provers/circom.js`: `poseidon([inputAmount, tokenParams,
outputCommitment])`. -/
def jsMsgHash (poseidon : List F → F) (inputAmount tokenParams outputCommitment : F) : F :=
  poseidon [inputAmount, tokenParams, outputCommitment]

/-- Outcome of the Go WASM prover's witness-array handling (the part of
`safeProve` in `src/unnamed/part_009` before witness creation):
a returned error, a Go index-out-of-range panic, or the three arrays the
circuit witness is filled with. -/
inductive ProveOutcome where
  | shapeError : String → ProveOutcome
  | indexOutOfRange : ProveOutcome
  | witnessBuilt : List String → List String → List String → ProveOutcome
deriving DecidableEq

/-- The array-shape handling of `safeProve` (Go WASM prover,
`src/unnamed/part_009`): only `len(dto.OutputAmounts) != 10` is checked; the
copy loop `for i := 0; i < 10; i++` then reads the first 10 entries of each of
the three arrays, which panics with index-out-of-range when
`OutputTokenParams` or `OutputOwnerPubKeyX` has fewer than 10 entries, and
reads only the first 10 entries when an array is longer. -/
def safeProve (outputAmounts outputTokenParams outputOwnerPubKeyX : List String) : ProveOutcome :=
  if outputAmounts.length ≠ 10 then
    ProveOutcome.shapeError ("Expected 10 OutputAmounts, got " ++ toString outputAmounts.length)
  else if outputTokenParams.length < 10 ∨ outputOwnerPubKeyX.length < 10 then
    ProveOutcome.indexOutOfRange
  else
    ProveOutcome.witnessBuilt (outputAmounts.take 10) (outputTokenParams.take 10)
      (outputOwnerPubKeyX.take 10)

/-- Lookup in a JS-object-like association map (`tokens.get(id)`,
`ledger[key]` in `src/web/server/tokens.js`). -/
def mapGet {α : Type} : List (String × α) → String → Option α
  | [], _ => none
  | (k', v) :: rest, k => if k' = k then some v else mapGet rest k

/-- JS object property assignment: replace the value at an existing key,
otherwise append the new key. -/
def mapSet {α : Type} : List (String × α) → String → α → List (String × α)
  | [], k, v => [(k, v)]
  | (k', v') :: rest, k, v =>
    if k' = k then (k, v) :: rest else (k', v') :: mapSet rest k v

/-- `token.ledger[key] || 0` in `src/web/server/tokens.js`: a missing (or
zero) balance reads as 0. -/
def ledgerGetD (ledger : List (String × Int)) (k : String) : Int :=
  (mapGet ledger k).getD 0

/-- The total of all balances in a ledger. -/
def ledgerSum (ledger : List (String × Int)) : Int :=
  (ledger.map fun p => p.2).sum

/-- The error message thrown by `updateTokenLedger` when the sender has too
few tokens. -/
def ledgerErrorMsg (sender : String) (currentBalance amount : Int) : String :=
  "Ledger update failed: " ++ sender ++ " has " ++ toString currentBalance
    ++ " tokens but tried to send " ++ toString amount
    ++ ". Hint: The ZK proof was valid, but the state transition is invalid."

/-- The two sequential assignments of `updateTokenLedger`:
`token.ledger[from] -= amount` then
`token.ledger[to] = (token.ledger[to] || 0) + amount`.
(On an absent sender key the JS subtraction would read `undefined` and store
NaN; for a positive amount that path is unreachable, because the balance check
throws first, so the read is embedded as the `|| 0` default.) -/
def updatedLedger (ledger : List (String × Int)) (sender recipient : String) (amount : Int) :
    List (String × Int) :=
  mapSet (mapSet ledger sender (ledgerGetD ledger sender - amount)) recipient
    (ledgerGetD (mapSet ledger sender (ledgerGetD ledger sender - amount)) recipient + amount)

/-- `updateTokenLedger(tokenId, from, to, amount)` from
`src/web/server/tokens.js`.  The in-place mutation of the token store is
embedded by state passing: on success the new store and the token's updated
ledger are returned; a throw propagates as `Except.error`, so the caller keeps
the unchanged store. -/
def updateTokenLedger (tokens : List (String × List (String × Int)))
    (tokenId sender recipient : String) (amount : Int) :
    Except String (List (String × List (String × Int)) × List (String × Int)) :=
  match mapGet tokens tokenId with
  | none => Except.error "Token not found"
  | some ledger =>
    if ledgerGetD ledger sender < amount then
      Except.error (ledgerErrorMsg sender (ledgerGetD ledger sender) amount)
    else
      Except.ok (mapSet tokens tokenId (updatedLedger ledger sender recipient amount),
        updatedLedger ledger sender recipient amount)

/-- A concrete witness accepted by `NativeAssetProof(2, 2, 2)`: balanced
amounts, a uniform script so the covenant and hook checks pass. -/
def w1 : NAPWitness where
  inputAmounts := fun i => [(100 : F), 50].getD i 0
  inputScripts := fun _ _ => 1
  inputTokenScripts := fun _ _ => 1
  numInputs := 2
  inputIndex := 0
  outputAmounts := fun i => [(80 : F), 70].getD i 0
  outputScripts := fun _ _ => 1
  numOutputs := 2
  numTokenOuts := 2
  isP2SHSpend := 1

/-- A concrete signature-spend witness (`isP2SHSpend = 0`) whose balance and
covenant checks pass but in which no input script equals the selected
companion token script. -/
def w2 : NAPWitness where
  inputAmounts := fun i => [(10 : F), 0].getD i 0
  inputScripts := fun _ _ => 1
  inputTokenScripts := fun _ _ => 7
  numInputs := 2
  inputIndex := 0
  outputAmounts := fun i => [(10 : F), 0].getD i 0
  outputScripts := fun _ _ => 1
  numOutputs := 2
  numTokenOuts := 2
  isP2SHSpend := 0

/-- A concrete array for exercising `ArraySelector`, with a repeated value and
a zero value. -/
def arrW : ℕ → F := fun i => [(5 : F), 5, 0].getD i 0

/-- A concrete boolean signal sequence for exercising the OR fold. -/
def bW : ℕ → F := fun i => [(0 : F), 1, 0].getD i 0

/-! Basic unfolding lemmas for the `List.range` folds. -/

theorem scriptPubKeyEqual_succ (n : ℕ) (a b : ℕ → F) :
    scriptPubKeyEqual (n + 1) a b = scriptPubKeyEqual n a b * isEqual (a n) (b n) := by
  simp [scriptPubKeyEqual, List.range_succ]

theorem sumFold_succ (n : ℕ) (v : ℕ → F) :
    sumFold (n + 1) v = sumFold n v + v n := by
  simp [sumFold, List.range_succ]

theorem orFold_succ (n : ℕ) (b : ℕ → F) :
    orFold (n + 1) b = orFold n b + b n - orFold n b * b n := by
  simp [orFold, List.range_succ]

theorem arraySelector_succ (n : ℕ) (arr : ℕ → F) (k : F) :
    arraySelector (n + 1) arr k = arraySelector n arr k + isEqual (n : F) k * arr n := by
  simp [arraySelector, List.range_succ]

/-- Natural numbers below the modulus cast injectively into the field. -/
theorem natCast_injF {i j : ℕ} (hi : i < P) (hj : j < P) (h : (i : F) = (j : F)) : i = j := by
  have hv := congrArg ZMod.val h
  rwa [ZMod.val_cast_of_lt hi, ZMod.val_cast_of_lt hj] at hv

theorem isEqual_boolean (a b : F) : isEqual a b = 0 ∨ isEqual a b = 1 := by
  unfold isEqual
  by_cases h : a = b <;> simp [h]

theorem scriptPubKeyEqual_boolean (len : ℕ) (a b : ℕ → F) :
    scriptPubKeyEqual len a b = 0 ∨ scriptPubKeyEqual len a b = 1 := by
  induction len with
  | zero => right; rfl
  | succ n ih =>
    rw [scriptPubKeyEqual_succ]
    rcases ih with h | h <;> rcases isEqual_boolean (a n) (b n) with h2 | h2 <;>
      simp [h, h2]

theorem scriptPubKeyEqual_eq_one_iff (len : ℕ) (a b : ℕ → F) :
    scriptPubKeyEqual len a b = 1 ↔ ∀ j, j < len → a j = b j := by
  induction len with
  | zero => simp [scriptPubKeyEqual]
  | succ n ih =>
    rw [scriptPubKeyEqual_succ]
    constructor
    · intro h
      by_cases hab : a n = b n
      · have h1 : scriptPubKeyEqual n a b = 1 := by
          rcases scriptPubKeyEqual_boolean n a b with h0 | h0
          · rw [h0] at h; simp [isEqual, hab] at h
          · exact h0
        intro j hj
        rcases Nat.lt_succ_iff_lt_or_eq.mp hj with hj' | hj'
        · exact (ih.mp h1) j hj'
        · exact hj' ▸ hab
      · rw [show isEqual (a n) (b n) = 0 by simp [isEqual, hab]] at h
        simp at h
    · intro h
      have hab : a n = b n := h n (Nat.lt_succ_self n)
      have h1 : scriptPubKeyEqual n a b = 1 := ih.mpr fun j hj => h j (Nat.lt_succ_of_lt hj)
      simp [h1, isEqual, hab]

/-! Characterizations of the accumulator combinators. -/

theorem orFold_boolean (n : ℕ) (b : ℕ → F) (hb : ∀ i, i < n → b i = 0 ∨ b i = 1) :
    orFold n b = 0 ∨ orFold n b = 1 := by
  induction n with
  | zero => left; rfl
  | succ m ih =>
    rw [orFold_succ]
    rcases ih (fun i hi => hb i (Nat.lt_succ_of_lt hi)) with h | h <;>
      rcases hb m (Nat.lt_succ_self m) with h2 | h2 <;> simp [h, h2]

theorem orFold_eq_one_iff (n : ℕ) (b : ℕ → F) (hb : ∀ i, i < n → b i = 0 ∨ b i = 1) :
    orFold n b = 1 ↔ ∃ i, i < n ∧ b i = 1 := by
  induction n with
  | zero =>
    simp [orFold]
  | succ m ih =>
    rw [orFold_succ]
    have ihm := ih (fun i hi => hb i (Nat.lt_succ_of_lt hi))
    rcases hb m (Nat.lt_succ_self m) with h2 | h2
    · rw [h2, mul_zero, add_zero, sub_zero, ihm]
      constructor
      · rintro ⟨i, hi, hbi⟩
        exact ⟨i, Nat.lt_succ_of_lt hi, hbi⟩
      · rintro ⟨i, hi, hbi⟩
        rcases Nat.lt_succ_iff_lt_or_eq.mp hi with hi' | hi'
        · exact ⟨i, hi', hbi⟩
        · exact absurd (h2.symm.trans (hi' ▸ hbi)) zero_ne_one
    · rw [h2, mul_one, show orFold m b + 1 - orFold m b = (1 : F) from by ring]
      constructor
      · intro _
        exact ⟨m, Nat.lt_succ_self m, h2⟩
      · intro _
        rfl

theorem orFold_eq_zero_iff (n : ℕ) (b : ℕ → F) (hb : ∀ i, i < n → b i = 0 ∨ b i = 1) :
    orFold n b = 0 ↔ ∀ i, i < n → b i = 0 := by
  induction n with
  | zero =>
    simp [orFold]
  | succ m ih =>
    rw [orFold_succ]
    have ihm := ih (fun i hi => hb i (Nat.lt_succ_of_lt hi))
    rcases hb m (Nat.lt_succ_self m) with h2 | h2
    · rw [h2, mul_zero, add_zero, sub_zero, ihm]
      constructor
      · intro h i hi
        rcases Nat.lt_succ_iff_lt_or_eq.mp hi with hi' | hi'
        · exact h i hi'
        · rw [hi']; exact h2
      · intro h i hi
        exact h i (Nat.lt_succ_of_lt hi)
    · rw [h2, mul_one, show orFold m b + 1 - orFold m b = (1 : F) from by ring]
      constructor
      · intro h
        exact absurd h one_ne_zero
      · intro h
        exact absurd (h2.symm.trans (h m (Nat.lt_succ_self m))) one_ne_zero

theorem sumFold_eq_sum (n : ℕ) (v : ℕ → F) :
    sumFold n v = ∑ i ∈ Finset.range n, v i := by
  induction n with
  | zero => rfl
  | succ m ih => rw [sumFold_succ, ih, Finset.sum_range_succ]

theorem sumFold_congr (n : ℕ) (v w : ℕ → F) (h : ∀ i, i < n → v i = w i) :
    sumFold n v = sumFold n w := by
  induction n with
  | zero => rfl
  | succ m ih =>
    rw [sumFold_succ, sumFold_succ, ih (fun i hi => h i (Nat.lt_succ_of_lt hi)),
      h m (Nat.lt_succ_self m)]

theorem sumFold_update (n j : ℕ) (v : ℕ → F) (x : F) (hj : j < n) :
    sumFold n (Function.update v j x) = sumFold n v + x - v j := by
  induction n with
  | zero => exact absurd hj (Nat.not_lt_zero j)
  | succ m ih =>
    rw [sumFold_succ, sumFold_succ]
    rcases Nat.lt_succ_iff_lt_or_eq.mp hj with hj' | hj'
    · rw [ih hj', show Function.update v j x m = v m from by
        rw [Function.update_apply, if_neg (by omega : ¬ m = j)]]
      ring
    · subst hj'
      rw [show Function.update v j x j = x from by rw [Function.update_apply, if_pos rfl],
        sumFold_congr j (Function.update v j x) v (fun i hi => by
          rw [Function.update_apply, if_neg (by omega : ¬ i = j)])]
      ring

theorem arraySelector_zero_of_no_match (n : ℕ) (arr : ℕ → F) (k : F)
    (h : ∀ i, i < n → (i : F) ≠ k) : arraySelector n arr k = 0 := by
  induction n with
  | zero => rfl
  | succ m ih =>
    rw [arraySelector_succ, ih (fun i hi => h i (Nat.lt_succ_of_lt hi))]
    simp [isEqual, h m (Nat.lt_succ_self m)]

theorem arraySelector_valid (n : ℕ) (hn : n ≤ P) (arr : ℕ → F) (k : ℕ) (hk : k < n) :
    arraySelector n arr (k : F) = arr k := by
  induction n with
  | zero => exact absurd hk (Nat.not_lt_zero k)
  | succ m ih =>
    rw [arraySelector_succ]
    rcases Nat.lt_succ_iff_lt_or_eq.mp hk with hk' | hk'
    · rw [ih (Nat.le_of_succ_le hn) hk']
      have hne : (m : F) ≠ (k : F) := fun h =>
        absurd (natCast_injF (by omega) (by omega) h) (by omega)
      simp [isEqual, hne]
    · subst hk'
      rw [arraySelector_zero_of_no_match k arr (k : F)
        (fun i hi h => absurd (natCast_injF (by omega) (by omega) h) (by omega))]
      simp [isEqual]

/-! Semantics of `LessThan(8)` on small natural operands. -/

theorem lessThan8_spec (i m : ℕ) (hm : m < 256) (hiP : i + 256 < P) :
    (lessThanSat 8 (i : F) (m : F) ↔ i < m + 256) ∧
    (i < m → lessThanOut 8 (i : F) (m : F) = 1) ∧
    (m ≤ i → i < m + 256 → lessThanOut 8 (i : F) (m : F) = 0) := by
  have h256 : (2 : ℕ) ^ 8 = 256 := by norm_num
  have h512 : (2 : ℕ) ^ (8 + 1) = 512 := by norm_num
  have hle : m ≤ i + 256 := by omega
  have hlt : i + 256 - m < P := by omega
  have hcast : (i : F) + ((256 : ℕ) : F) - (m : F) = ((i + 256 - m : ℕ) : F) := by
    rw [Nat.cast_sub hle]
    push_cast
    ring
  refine ⟨?_, ?_, ?_⟩
  · show ((i : F) + ((2 ^ 8 : ℕ) : F) - (m : F)).val < 2 ^ (8 + 1) ↔ i < m + 256
    rw [h256, h512, hcast, ZMod.val_cast_of_lt hlt]
    omega
  · intro him
    show 1 - ((((i : F) + ((2 ^ 8 : ℕ) : F) - (m : F)).val / 2 ^ 8 : ℕ) : F) = 1
    rw [h256, hcast, ZMod.val_cast_of_lt hlt,
      show (i + 256 - m) / 256 = 0 from by omega]
    simp
  · intro hmi him
    show 1 - ((((i : F) + ((2 ^ 8 : ℕ) : F) - (m : F)).val / 2 ^ 8 : ℕ) : F) = 0
    rw [h256, hcast, ZMod.val_cast_of_lt hlt,
      show (i + 256 - m) / 256 = 1 from by omega]
    simp

/-- The covenant check ignores output scripts at slots `i >= numTokenOuts`:
at such a slot the `LessThan(8)` output is 0 (or the comparison is
unsatisfiable for every script), so only the scripts of slots below
`numTokenOuts` influence the constraint. -/
theorem checkSpend_congr (maxOutputs spkLen m : ℕ) (hm : m < 256)
    (hP : maxOutputs + 256 ≤ P) (cov : ℕ → F) (s s' : ℕ → ℕ → F)
    (h : ∀ i, i < m → s i = s' i) :
    checkSpendToSameCovenant maxOutputs spkLen s cov (m : F) ↔
    checkSpendToSameCovenant maxOutputs spkLen s' cov (m : F) := by
  apply forall_congr'
  intro i
  apply imp_congr_right
  intro hi
  obtain ⟨hsat, hlt1, hlt0⟩ := lessThan8_spec i m hm (by omega)
  by_cases him : i < m
  · rw [h i him]
  · by_cases hbig : i < m + 256
    · rw [hlt0 (by omega) hbig, zero_mul, zero_mul]
    · rw [iff_iff_implies_and_implies]
      constructor
      · intro hc
        exact absurd (hsat.mp hc.1) hbig
      · intro hc
        exact absurd (hsat.mp hc.1) hbig

/-! The JS flattening agrees with the circuit's `outputData` signals. -/

theorem jsOutputData_succ (m : ℕ) (a s x : ℕ → F) :
    jsOutputData (m + 1) a s x = jsOutputData m a s x ++ [a m, s m, x m] := by
  simp [jsOutputData, List.range_succ]

theorem jsOutputData_length (m : ℕ) (a s x : ℕ → F) :
    (jsOutputData m a s x).length = m * 3 := by
  induction m with
  | zero => rfl
  | succ k ih =>
    rw [jsOutputData_succ, List.length_append, ih]
    simp
    omega

theorem jsOutputData_getD (m : ℕ) (a s x : ℕ → F) (k : ℕ) (hk : k < m * 3) :
    (jsOutputData m a s x).getD k 0 = circuitOutputData a s x k := by
  induction m with
  | zero => omega
  | succ n ih =>
    rw [jsOutputData_succ]
    by_cases hk' : k < n * 3
    · rw [List.getD_append _ _ _ _ (by rw [jsOutputData_length]; omega)]
      exact ih hk'
    · have hlen : (jsOutputData n a s x).length = n * 3 := jsOutputData_length n a s x
      rw [List.getD_append_right _ _ _ _ (by omega), hlen]
      have hr : k - n * 3 = 0 ∨ k - n * 3 = 1 ∨ k - n * 3 = 2 := by omega
      unfold circuitOutputData
      rcases hr with h | h | h
      · rw [h, show k % 3 = 0 from by omega, show k / 3 = n from by omega]
        simp [List.getD]
      · rw [h, show k % 3 = 1 from by omega, show k / 3 = n from by omega]
        simp [List.getD]
      · rw [h, show k % 3 = 2 from by omega, show k / 3 = n from by omega]
        simp [List.getD]

/-! Association-map lemmas for the ledger model. -/

theorem mapGet_mapSet_same {α : Type} (l : List (String × α)) (k : String) (v : α) :
    mapGet (mapSet l k v) k = some v := by
  induction l with
  | nil => simp [mapGet, mapSet]
  | cons p rest ih =>
    obtain ⟨k', v'⟩ := p
    by_cases h : k' = k
    · simp [mapGet, mapSet, h]
    · simp [mapGet, mapSet, h, ih]

theorem mapGet_mapSet_other {α : Type} (l : List (String × α)) (k k' : String) (v : α)
    (h : k' ≠ k) : mapGet (mapSet l k v) k' = mapGet l k' := by
  induction l with
  | nil => simp [mapGet, mapSet, Ne.symm h]
  | cons p rest ih =>
    obtain ⟨a, b⟩ := p
    by_cases ha : a = k
    · subst ha
      simp [mapGet, mapSet, Ne.symm h]
    · by_cases ha' : a = k'
      · simp [mapGet, mapSet, ha, ha', h]
      · simp [mapGet, mapSet, ha, ha', ih]

theorem ledgerGetD_mapSet_same (l : List (String × Int)) (k : String) (v : Int) :
    ledgerGetD (mapSet l k v) k = v := by
  rw [ledgerGetD, mapGet_mapSet_same]
  rfl

theorem ledgerGetD_mapSet_other (l : List (String × Int)) (k k' : String) (v : Int)
    (h : k' ≠ k) : ledgerGetD (mapSet l k v) k' = ledgerGetD l k' := by
  rw [ledgerGetD, mapGet_mapSet_other l k k' v h]
  rfl

theorem ledgerSum_mapSet (l : List (String × Int)) (k : String) (v : Int) :
    ledgerSum (mapSet l k v) = ledgerSum l + v - ledgerGetD l k := by
  induction l with
  | nil => simp [ledgerSum, mapSet, ledgerGetD, mapGet]
  | cons p rest ih =>
    obtain ⟨a, b⟩ := p
    by_cases ha : a = k
    · rw [show mapSet ((a, b) :: rest) k v = (k, v) :: rest from by simp [mapSet, ha],
        show ledgerGetD ((a, b) :: rest) k = b from by simp [ledgerGetD, mapGet, ha],
        show ledgerSum ((k, v) :: rest) = v + ledgerSum rest from by simp [ledgerSum],
        show ledgerSum ((a, b) :: rest) = b + ledgerSum rest from by simp [ledgerSum]]
      ring
    · rw [show mapSet ((a, b) :: rest) k v = (a, b) :: mapSet rest k v from by
          simp [mapSet, ha],
        show ledgerGetD ((a, b) :: rest) k = ledgerGetD rest k from by
          simp [ledgerGetD, mapGet, ha],
        show ledgerSum ((a, b) :: mapSet rest k v) = b + ledgerSum (mapSet rest k v) from by
          simp [ledgerSum],
        show ledgerSum ((a, b) :: rest) = b + ledgerSum rest from by simp [ledgerSum], ih]
      ring

/-! Claim theorems. -/

/-- C1: a witness is accepted by the transfer-validity circuit only if the
prefix-sum fold of all input amount slots equals the prefix-sum fold of all
output amount slots (padding slots included); those folds are exactly the sums
of all slots, and the final equality is one of the enforced constraints. -/
theorem balance_conservation_of_accept (maxInputs maxOutputs spkLen : ℕ) (w : NAPWitness)
    (hacc : nativeAssetProofAccepts maxInputs maxOutputs spkLen w) :
    sumFold maxInputs w.inputAmounts = sumFold maxOutputs w.outputAmounts ∧
    ∀ (n : ℕ) (v : ℕ → F), sumFold n v = ∑ x ∈ Finset.range n, v x :=
  ⟨hacc.1, fun n v => sumFold_eq_sum n v⟩

/-- Witness for C1: the concrete witness `w1` (inputs 100 + 50, outputs
80 + 70) is accepted and satisfies balance conservation. -/
theorem balance_conservation_of_accept_witness :
    sumFold 2 w1.inputAmounts = sumFold 2 w1.outputAmounts ∧
    ∀ (n : ℕ) (v : ℕ → F), sumFold n v = ∑ x ∈ Finset.range n, v x :=
  balance_conservation_of_accept 2 2 2 w1 (by decide)

/-- C4: `ArraySelector` returns `arr[k]` for every in-range index `k`
(whatever the array contents), and returns 0 for every field value outside
`[0, n)`. -/
theorem arraySelector_correct (n : ℕ) (hn : n ≤ P) (arr : ℕ → F) :
    (∀ k, k < n → arraySelector n arr (k : F) = arr k) ∧
    (∀ k : F, (∀ i, i < n → (i : F) ≠ k) → arraySelector n arr k = 0) :=
  ⟨fun k hk => arraySelector_valid n hn arr k hk,
   fun k hk => arraySelector_zero_of_no_match n arr k hk⟩

/-- Witness for C4: selecting index 1 from the array `[5, 5, 0]` (repeated and
zero values) yields 5, and an out-of-range index yields 0. -/
theorem arraySelector_correct_witness :
    arraySelector 3 arrW ((1 : ℕ) : F) = arrW 1 ∧ arraySelector 3 arrW 77 = 0 :=
  ⟨(arraySelector_correct 3 (by norm_num) arrW).1 1 (by norm_num),
   (arraySelector_correct 3 (by norm_num) arrW).2 77 (by decide)⟩

/-- C5: on boolean inputs the OR-accumulator fold yields 1 when at least one
input is 1, and 0 when every input is 0. -/
theorem orFold_anyOf_correct (n : ℕ) (b : ℕ → F) (hb : ∀ i, i < n → b i = 0 ∨ b i = 1) :
    ((∃ i, i < n ∧ b i = 1) → orFold n b = 1) ∧
    ((∀ i, i < n → b i = 0) → orFold n b = 0) :=
  ⟨fun h => (orFold_eq_one_iff n b hb).mpr h,
   fun h => (orFold_eq_zero_iff n b hb).mpr h⟩

/-- Witness for C5: the fold over `[0, 1, 0]` yields 1. -/
theorem orFold_anyOf_correct_witness : orFold 3 bW = 1 :=
  (orFold_anyOf_correct 3 bW (by decide)).1 ⟨1, by norm_num, by decide⟩

/-- C9: booleanness is an invariant of the OR-accumulator fold: on inputs in
`{0, 1}` every intermediate accumulator value is in `{0, 1}`; in particular
every `anyMatch` accumulator of `CheckP2SHSpend` and every `hasAuth`
accumulator of `NativeAsset` is boolean, since the folded `ScriptPubKeyEqual`
and `IsEqual` signals always are. -/
theorem orFold_accumulator_boolean (n : ℕ) (b : ℕ → F)
    (hb : ∀ i, i < n → b i = 0 ∨ b i = 1) :
    (∀ k, k ≤ n → orFold k b = 0 ∨ orFold k b = 1) ∧
    (∀ (maxInputs spkLen : ℕ) (iScr : ℕ → ℕ → F) (ts : ℕ → F) (k : ℕ), k ≤ maxInputs →
      anyMatchAcc k spkLen iScr ts = 0 ∨ anyMatchAcc k spkLen iScr ts = 1) ∧
    (∀ (nInputs : ℕ) (inCov : ℕ → F) (sc : F) (k : ℕ), k ≤ nInputs →
      hasAuthAcc k inCov sc = 0 ∨ hasAuthAcc k inCov sc = 1) :=
  ⟨fun k hk => orFold_boolean k b (fun i hi => hb i (lt_of_lt_of_le hi hk)),
   fun _ spkLen iScr ts k _ =>
     orFold_boolean k _ (fun i _ => scriptPubKeyEqual_boolean spkLen (iScr i) ts),
   fun _ inCov sc k _ =>
     orFold_boolean k _ (fun i _ => isEqual_boolean (inCov i) sc)⟩

/-- Witness for C9: the intermediate accumulator after two of the three
boolean inputs `[0, 1, 0]` is itself boolean. -/
theorem orFold_accumulator_boolean_witness : orFold 2 bW = 0 ∨ orFold 2 bW = 1 :=
  (orFold_accumulator_boolean 3 bW (by decide)).1 2 (by norm_num)

/-- C3: with `numTokenOuts` equal to a natural number `m` in the comparator's
range `[0, 2^8)`, acceptance forces every output slot `i < m` to carry the
covenant script selected from the inputs, while the scripts of the inactive
slots `i >= m` are unconstrained: replacing them by any other values never
changes whether the witness is accepted. -/
theorem covenant_active_match_and_padding_frame (maxInputs maxOutputs spkLen m : ℕ)
    (hm : m < 256) (hP : maxOutputs + 256 ≤ P) (w : NAPWitness)
    (hnum : w.numTokenOuts = (m : F)) :
    (nativeAssetProofAccepts maxInputs maxOutputs spkLen w →
      ∀ i, i < maxOutputs → i < m → ∀ j, j < spkLen →
        w.outputScripts i j = currentCovenantScript maxInputs w j) ∧
    (∀ s : ℕ → ℕ → F, (∀ i, i < m → s i = w.outputScripts i) →
      (nativeAssetProofAccepts maxInputs maxOutputs spkLen w ↔
        nativeAssetProofAccepts maxInputs maxOutputs spkLen (setOutputScripts w s))) := by
  constructor
  · intro hacc i hi him j hj
    have hslot := hacc.2.1 i hi
    rw [hnum] at hslot
    obtain ⟨hsat, hlt1, hlt0⟩ := lessThan8_spec i m hm (by omega)
    have h2 := hslot.2
    rw [hlt1 him, one_mul] at h2
    have h3 : scriptPubKeyEqual spkLen (w.outputScripts i)
        (currentCovenantScript maxInputs w) = 1 := by
      linear_combination -h2
    exact (scriptPubKeyEqual_eq_one_iff spkLen _ _).mp h3 j hj
  · intro s hs
    show (balanceCheck maxInputs maxOutputs w.inputAmounts w.outputAmounts ∧
        checkSpendToSameCovenant maxOutputs spkLen w.outputScripts
          (currentCovenantScript maxInputs w) w.numTokenOuts ∧
        checkP2SHSpend maxInputs spkLen w.inputScripts (currentTokenScript maxInputs w)) ↔
      (balanceCheck maxInputs maxOutputs w.inputAmounts w.outputAmounts ∧
        checkSpendToSameCovenant maxOutputs spkLen s
          (currentCovenantScript maxInputs w) w.numTokenOuts ∧
        checkP2SHSpend maxInputs spkLen w.inputScripts (currentTokenScript maxInputs w))
    rw [hnum]
    exact and_congr Iff.rfl (and_congr
      (checkSpend_congr maxOutputs spkLen m hm hP _ w.outputScripts s
        (fun i hi => (hs i hi).symm))
      Iff.rfl)

/-- Witness for C3: instantiated at the accepted witness `w1` with
`numTokenOuts = 2`. -/
theorem covenant_active_match_and_padding_frame_witness :
    (nativeAssetProofAccepts 2 2 2 w1 →
      ∀ i, i < 2 → i < 2 → ∀ j, j < 2 →
        w1.outputScripts i j = currentCovenantScript 2 w1 j) ∧
    (∀ s : ℕ → ℕ → F, (∀ i, i < 2 → s i = w1.outputScripts i) →
      (nativeAssetProofAccepts 2 2 2 w1 ↔
        nativeAssetProofAccepts 2 2 2 (setOutputScripts w1 s))) :=
  covenant_active_match_and_padding_frame 2 2 2 2 (by norm_num) (by norm_num) w1 (by decide)

/-- C7: replacing a single output amount of an accepted witness by any
different field value (all other signals held fixed) breaks the balance
constraint, so the mutated witness is rejected. -/
theorem output_amount_mutation_rejected (maxInputs maxOutputs spkLen : ℕ) (w : NAPWitness)
    (hacc : nativeAssetProofAccepts maxInputs maxOutputs spkLen w)
    (j : ℕ) (hj : j < maxOutputs) (v : F) (hv : v ≠ w.outputAmounts j) :
    ¬ nativeAssetProofAccepts maxInputs maxOutputs spkLen
      (setOutputAmounts w (Function.update w.outputAmounts j v)) := by
  intro hacc'
  have h1 : sumFold maxInputs w.inputAmounts
      = sumFold maxOutputs (Function.update w.outputAmounts j v) := hacc'.1
  rw [sumFold_update maxOutputs j w.outputAmounts v hj, ← hacc.1] at h1
  exact hv (by linear_combination -h1)

/-- Witness for C7: changing the first output amount of the accepted witness
`w1` from 80 to 81 makes it rejected. -/
theorem output_amount_mutation_rejected_witness :
    ¬ nativeAssetProofAccepts 2 2 2
      (setOutputAmounts w1 (Function.update w1.outputAmounts 0 81)) :=
  output_amount_mutation_rejected 2 2 2 w1 (by decide) 0 (by norm_num) 81 (by decide)

/-- C2: contrary to the claim (and to the circuit's own comments), the
hook/at-least-one-match check is enforced unconditionally: `NativeAssetProof`
never reads the `isP2SHSpend` signal.  The concrete witness `w2` has
`isP2SHSpend = 0`, satisfies the balance and covenant checks, yet is rejected
because no input script equals the selected companion token script. -/
theorem hook_check_unconditional_bug :
    w2.isP2SHSpend = 0 ∧
    balanceCheck 2 2 w2.inputAmounts w2.outputAmounts ∧
    checkSpendToSameCovenant 2 2 w2.outputScripts (currentCovenantScript 2 w2)
      w2.numTokenOuts ∧
    ¬ nativeAssetProofAccepts 2 2 2 w2 := by
  refine ⟨by decide, by decide, by decide, ?_⟩
  intro hacc
  exact absurd hacc.2.2 (by decide)

/-- C6: for every flattened output list, the JS chunked commitment computation
equals the circuit's `HashArray` on the same inputs, and both sides build the
same signed message `Hash(inputAmount, inputScript, commitment)`. -/
theorem js_commitment_matches_circuit (poseidon : List F → F) (maxOutputs : ℕ)
    (outputAmounts outputScripts outputOwnerPubKeyX : ℕ → F) :
    jsOutputCommitment poseidon
        (jsOutputData maxOutputs outputAmounts outputScripts outputOwnerPubKeyX)
      = circuitOutputCommitment poseidon maxOutputs outputAmounts outputScripts
          outputOwnerPubKeyX ∧
    ∀ inputAmount inputScript commitment : F,
      jsMsgHash poseidon inputAmount inputScript commitment
        = sigMessage poseidon inputAmount inputScript commitment := by
  constructor
  · unfold jsOutputCommitment circuitOutputCommitment hashArray
    rw [jsOutputData_length]
    congr 1
    apply List.map_congr_left
    intro c _
    congr 1
    apply List.map_congr_left
    intro i _
    by_cases h : c * 8 + i < maxOutputs * 3
    · rw [if_pos h, if_pos h,
        jsOutputData_getD maxOutputs outputAmounts outputScripts outputOwnerPubKeyX _ h]
    · rw [if_neg h, if_neg h]
  · intro inputAmount inputScript commitment
    rfl

/-- C8 counterexample: with a well-sized `OutputAmounts` but an 11-entry
`OutputTokenParams`, the prover does not return an error; it proceeds with the
first 10 entries, silently truncating the over-length array. -/
theorem safeProve_truncates_counterexample :
    safeProve (List.replicate 10 "0") (List.replicate 11 "7") (List.replicate 10 "0")
      = ProveOutcome.witnessBuilt (List.replicate 10 "0") (List.replicate 10 "7")
        (List.replicate 10 "0") ∧
    List.replicate 11 "7" ≠ List.replicate 10 "7" :=
  ⟨by decide, by decide⟩

/-- C8 (amended): only the `OutputAmounts` length is validated — a wrong
length there is rejected with a returned error before witness construction;
a short `OutputTokenParams`/`OutputOwnerPubKeyX` causes an index-out-of-range
panic, and a long one is silently truncated to its first 10 entries. -/
theorem safeProve_shape_handling (a b c : List String) :
    (a.length ≠ 10 →
      safeProve a b c
        = ProveOutcome.shapeError ("Expected 10 OutputAmounts, got " ++ toString a.length)) ∧
    (a.length = 10 → b.length < 10 ∨ c.length < 10 →
      safeProve a b c = ProveOutcome.indexOutOfRange) ∧
    (a.length = 10 → 10 ≤ b.length → 10 ≤ c.length →
      safeProve a b c = ProveOutcome.witnessBuilt a (b.take 10) (c.take 10)) := by
  refine ⟨fun h => ?_, fun h hbc => ?_, fun h hb hc => ?_⟩
  · unfold safeProve
    rw [if_pos h]
  · unfold safeProve
    rw [if_neg (by simp [h]), if_pos hbc]
  · unfold safeProve
    rw [if_neg (by simp [h]), if_neg (by omega),
      List.take_of_length_le (le_of_eq h)]

/-- Witness for C8's amended claim: a 9-entry `OutputAmounts` is rejected with
the shape error. -/
theorem safeProve_shape_handling_witness :
    safeProve (List.replicate 9 "0") [] []
      = ProveOutcome.shapeError
          ("Expected 10 OutputAmounts, got " ++ toString (List.replicate 9 "0").length) :=
  (safeProve_shape_handling (List.replicate 9 "0") [] []).1 (by decide)

/-- Reduction of `updateTokenLedger` once the token has been found. -/
theorem updateTokenLedger_found (tokens : List (String × List (String × Int)))
    (tokenId sender recipient : String) (amount : Int) (ledger : List (String × Int))
    (htok : mapGet tokens tokenId = some ledger) :
    updateTokenLedger tokens tokenId sender recipient amount
      = if ledgerGetD ledger sender < amount then
          Except.error (ledgerErrorMsg sender (ledgerGetD ledger sender) amount)
        else
          Except.ok (mapSet tokens tokenId (updatedLedger ledger sender recipient amount),
            updatedLedger ledger sender recipient amount) := by
  unfold updateTokenLedger
  rw [htok]

/-- C10: for an existing token and a positive amount, `updateTokenLedger`
throws exactly when the sender's balance (defaulting to 0) is below the
amount — leaving the store unchanged, since the error propagates before any
update — and otherwise moves the amount from sender to recipient, preserving
the sum of all balances. -/
theorem updateTokenLedger_spec (tokens : List (String × List (String × Int)))
    (tokenId sender recipient : String) (amount : Int) (ledger : List (String × Int))
    (htok : mapGet tokens tokenId = some ledger) (hpos : 0 < amount) :
    (ledgerGetD ledger sender < amount →
      updateTokenLedger tokens tokenId sender recipient amount
        = Except.error (ledgerErrorMsg sender (ledgerGetD ledger sender) amount)) ∧
    (amount ≤ ledgerGetD ledger sender →
      updateTokenLedger tokens tokenId sender recipient amount
        = Except.ok (mapSet tokens tokenId (updatedLedger ledger sender recipient amount),
            updatedLedger ledger sender recipient amount) ∧
      ledgerSum (updatedLedger ledger sender recipient amount) = ledgerSum ledger ∧
      (sender ≠ recipient →
        ledgerGetD (updatedLedger ledger sender recipient amount) sender
          = ledgerGetD ledger sender - amount ∧
        ledgerGetD (updatedLedger ledger sender recipient amount) recipient
          = ledgerGetD ledger recipient + amount) ∧
      (sender = recipient →
        ∀ k, ledgerGetD (updatedLedger ledger sender recipient amount) k
          = ledgerGetD ledger k)) := by
  constructor
  · intro hlt
    rw [updateTokenLedger_found tokens tokenId sender recipient amount ledger htok,
      if_pos hlt]
  · intro hge
    refine ⟨?_, ?_, ?_, ?_⟩
    · rw [updateTokenLedger_found tokens tokenId sender recipient amount ledger htok,
        if_neg (not_lt.mpr hge)]
    · unfold updatedLedger
      rw [ledgerSum_mapSet, ledgerSum_mapSet]
      ring
    · intro hne
      constructor
      · unfold updatedLedger
        rw [ledgerGetD_mapSet_other _ recipient sender _ hne, ledgerGetD_mapSet_same]
      · unfold updatedLedger
        rw [ledgerGetD_mapSet_same,
          ledgerGetD_mapSet_other ledger sender recipient _ (Ne.symm hne)]
    · intro heq k
      subst heq
      unfold updatedLedger
      by_cases hk : k = sender
      · subst hk
        rw [ledgerGetD_mapSet_same, ledgerGetD_mapSet_same]
        ring
      · rw [ledgerGetD_mapSet_other _ _ _ _ hk, ledgerGetD_mapSet_other _ _ _ _ hk]

/-- Witness for C10: sending 5000 tokens from a server balance of 1000 throws
the insufficient-balance error. -/
theorem updateTokenLedger_spec_witness :
    updateTokenLedger [("default", [("server", (1000 : Int))])] "default" "server" "alice" 5000
      = Except.error
          (ledgerErrorMsg "server" (ledgerGetD [("server", (1000 : Int))] "server") 5000) :=
  (updateTokenLedger_spec [("default", [("server", (1000 : Int))])] "default" "server" "alice"
    5000 [("server", (1000 : Int))] (by decide) (by norm_num)).1 (by decide)
